import Mathlib

/-!
Shallow embedding of the gh-parametric-toolkit geometric-synthesis core
(`src/tools/facade_panelizer/src/panelizer.py`,
`src/tools/src/adaptive_fenestration.py`, `src/tools/src/tower_twister.py`)
and verification of the specification's claims about it.

Modelling conventions:
* Python floats/ints are modelled as `ℚ`/`ℤ` (the claims under scrutiny are
  structural, not about binary rounding).
* Python exceptions are modelled with `Except PyErr`; `ValueError`,
  `TypeError`, `RuntimeError` map to the constructors of `PyErr`.
* Dynamic typing in the fenestration data pipeline (where one branch of
  `normalize_data` returns a tuple and its consumers iterate whatever value
  they receive) is modelled with the small universe `PyVal`.
* Object mutation (curve `Transform` in place) is modelled with an explicit
  heap `ℕ → α` plus an allocation counter: caller-held objects live at ids
  below the counter, `Duplicate` allocates at the counter, and in-place
  transforms update the heap.
* The Rhino geometry kernel (areas, frames, patch construction, extrusion,
  boolean difference, lofting) is an external trusted capability; it is
  abstracted as explicit function parameters / kernel records.
-/

/-- Python exception kinds raised by the toolkit code. -/
inductive PyErr where
  | valueError
  | typeError
  | runtimeError
  | indexError
  deriving DecidableEq, Repr

/-- A 3D point with rational coordinates. -/
structure Point3 where
  x : ℚ
  y : ℚ
  z : ℚ
  deriving DecidableEq, Repr

/-- Dynamic Python values flowing through the fenestration data pipeline:
numbers, lists of values, and 2-tuples. -/
inductive PyVal where
  | num (q : ℚ)
  | list (xs : List PyVal)
  | tuple2 (a b : PyVal)

instance exceptDecEq {ε α : Type} [DecidableEq ε] [DecidableEq α] :
    DecidableEq (Except ε α)
  | .error e, .error f =>
    if h : e = f then isTrue (by rw [h]) else isFalse (fun hh => h (Except.error.inj hh))
  | .error _, .ok _ => isFalse (fun hh => Except.noConfusion hh)
  | .ok _, .error _ => isFalse (fun hh => Except.noConfusion hh)
  | .ok a, .ok b =>
    if h : a = b then isTrue (by rw [h]) else isFalse (fun hh => h (Except.ok.inj hh))

/-- Python `int(...)` on a float: truncation toward zero. -/
def pyInt (q : ℚ) : ℤ :=
  if 0 ≤ q then ⌊q⌋ else -⌊-q⌋

/-- Python `min` of a nonempty list, given head and tail. -/
def listMin (x : ℚ) (xs : List ℚ) : ℚ := xs.foldl min x

/-- Python `max` of a nonempty list, given head and tail. -/
def listMax (x : ℚ) (xs : List ℚ) : ℚ := xs.foldl max x

/-- Embeds `normalize_data` (adaptive_fenestration.py lines 14-35).
Min–max normalization; on the degenerate all-equal input it returns a
2-tuple `([0.5]*n, [5]*n)`, otherwise a bare list of normalized floats.
`min([])` in Python raises `ValueError`, hence the empty case. -/
def normalize_data (data_values : List ℚ) : Except PyErr PyVal :=
  match data_values with
  | [] => .error .valueError
  | x :: xs =>
    let min_val := listMin x xs
    let max_val := listMax x xs
    if max_val = min_val then
      .ok (.tuple2 (.list (List.replicate (x :: xs).length (.num (1/2))))
                   (.list (List.replicate (x :: xs).length (.num 5))))
    else
      .ok (.list ((x :: xs).map (fun v => .num ((v - min_val) / (max_val - min_val)))))

/-- Python iteration `for norm in normalized_values`: lists yield their
elements, 2-tuples yield their two components, numbers are not iterable. -/
def pyIterate : PyVal → Except PyErr (List PyVal)
  | .list xs => .ok xs
  | .tuple2 a b => .ok [a, b]
  | .num _ => .error .typeError

/-- One step of `bin_into_categories`:
`min(int(norm * num_categories), num_categories - 1)`.  When `norm` is not
a number (e.g. a list coming out of the degenerate `normalize_data`
branch), `int(...)` raises `TypeError`. -/
def binOne (num_categories : ℤ) : PyVal → Except PyErr ℤ
  | .num q => .ok (min (pyInt (q * num_categories)) (num_categories - 1))
  | _ => .error .typeError

/-- Embeds `bin_into_categories` (adaptive_fenestration.py lines 38-49). -/
def bin_into_categories (normalized_values : PyVal) (num_categories : ℤ) :
    Except PyErr (List ℤ) := do
  let items ← pyIterate normalized_values
  items.mapM (binOne num_categories)

/-- Embeds `calculate_opening_scale` (adaptive_fenestration.py lines 52-69). -/
def calculate_opening_scale (normalized_value min_scale max_scale : ℚ)
    (invert : Bool) : ℚ :=
  if invert then
    max_scale - normalized_value * (max_scale - min_scale)
  else
    min_scale + normalized_value * (max_scale - min_scale)

/-- An oriented local coordinate frame (rg.Plane): origin plus basis axes. -/
structure Frame where
  origin : Point3
  xAxis : Point3
  yAxis : Point3
  zAxis : Point3

/-- Scalar multiple of a vector (rg.Vector3d * float). -/
def vecScale (s : ℚ) (v : Point3) : Point3 :=
  ⟨s * v.x, s * v.y, s * v.z⟩

/-- Action of `rg.Transform.Scale(rg.Plane.WorldXY, f, f, 1.0)` on a point:
non-uniform scale about the world XY plane. -/
def scaleWorldXY (f : ℚ) (p : Point3) : Point3 :=
  ⟨f * p.x, f * p.y, p.z⟩

/-- Action of `rg.Transform.PlaneToPlane(rg.Plane.WorldXY, frame)` on a
point: remap world coordinates into the frame's coordinate system. -/
def planeToPlaneWorldXY (fr : Frame) (p : Point3) : Point3 :=
  ⟨fr.origin.x + p.x * fr.xAxis.x + p.y * fr.yAxis.x + p.z * fr.zAxis.x,
   fr.origin.y + p.x * fr.xAxis.y + p.y * fr.yAxis.y + p.z * fr.zAxis.y,
   fr.origin.z + p.x * fr.xAxis.z + p.y * fr.yAxis.z + p.z * fr.zAxis.z⟩

/-- Heap update: the object store maps object ids to values; mutating an
object in place rewrites its entry. -/
def hupd {α : Type} (h : ℕ → α) (i : ℕ) (a : α) : ℕ → α :=
  fun j => if j = i then a else h j

/-- The per-panel metrics dict built by `create_fenestrated_panel`; the
`category` / `data_value` / `normalized_value` keys are added later by the
`adaptive_fenestration` loop, hence the `Option` defaults. -/
structure FenInfo where
  id : String
  opening_scale : ℚ
  opening_area : ℚ
  opening_percent : ℚ
  panel_area : ℚ
  category : Option ℤ := none
  data_value : Option ℚ := none
  normalized_value : Option PyVal := none

/-- The external Rhino geometry-kernel operations used by the
fenestration module, abstracted over panel (`G`), brep (`B`) and
extrusion-surface (`E`) types. `frameAt` models `panel.FrameAt` at the
domain midpoint (returns `none` on failure), `boolDiff` models
`rg.Brep.CreateBooleanDifference` with its tolerance, `areaG`/`areaC`
model `rg.AreaMassProperties.Compute(...).Area`. -/
structure FenKernel (G B E : Type) where
  frameAt : G → Option Frame
  toBrep : G → B
  extrude : List Point3 → Point3 → Option E
  extToBrep : E → B
  boolDiff : B → B → ℚ → Option (List B)
  areaG : G → ℚ
  areaC : List Point3 → ℚ

/-- Embeds `create_fenestrated_panel` (adaptive_fenestration.py lines
72-146).  The opening shape is a heap-resident curve (a list of defining
points); `opening_shape.Duplicate()` allocates a fresh id carrying the
same value, and each `.Transform(...)` call updates that fresh entry in
place.  Returns the resulting geometry (`Sum.inl` = the original panel
object, `Sum.inr` = a brep), the metrics record, and the final heap and
allocation counter. -/
def create_fenestrated_panel {G B E : Type} (K : FenKernel G B E)
    (heap : ℕ → List Point3) (next : ℕ)
    (panel : G) (opening_shape : ℕ) (scale_factor : ℚ) (panel_id : String) :
    Except PyErr ((G ⊕ B) × FenInfo × (ℕ → List Point3) × ℕ) :=
  if scale_factor = 0 then
    .ok (.inl panel,
      { id := panel_id, opening_scale := 0, opening_area := 0,
        opening_percent := 0, panel_area := K.areaG panel }, heap, next)
  else
    match K.frameAt panel with
    | none => .error .runtimeError
    | some frame =>
      let opening_curve := next
      let heap1 := hupd heap opening_curve (heap opening_shape)
      let next1 := next + 1
      let heap2 := hupd heap1 opening_curve
        ((heap1 opening_curve).map (scaleWorldXY scale_factor))
      let heap3 := hupd heap2 opening_curve
        ((heap2 opening_curve).map (planeToPlaneWorldXY frame))
      let panel_brep := K.toBrep panel
      let extrusion_vector := vecScale 1 frame.zAxis
      let result_panel : B :=
        match K.extrude (heap3 opening_curve) extrusion_vector with
        | some opening_surface =>
          match K.boolDiff panel_brep (K.extToBrep opening_surface) (1/100) with
          | some (b :: _) => b
          | _ => panel_brep
        | none => panel_brep
      let opening_area := if 0 < scale_factor then K.areaC (heap3 opening_curve) else 0
      let panel_area := K.areaG panel
      let opening_percent := if 0 < panel_area then opening_area / panel_area * 100 else 0
      .ok (.inr result_panel,
        { id := panel_id, opening_scale := scale_factor, opening_area := opening_area,
          opening_percent := opening_percent, panel_area := panel_area }, heap3, next1)

/-- Python list indexing `xs[i]` (raises IndexError when out of range). -/
def pyIndexList {α : Type} (xs : List α) (i : ℕ) : Except PyErr α :=
  match xs[i]? with
  | some a => .ok a
  | none => .error .indexError

/-- Python subscript `v[i]` on a dynamic value. -/
def pyIndex : PyVal → ℕ → Except PyErr PyVal
  | .list xs, i => pyIndexList xs i
  | .tuple2 a _, 0 => .ok a
  | .tuple2 _ b, 1 => .ok b
  | .tuple2 _ _, _ => .error .indexError
  | .num _, _ => .error .typeError

/-- The per-panel loop of `adaptive_fenestration` (lines 193-203):
`for i, (panel, panel_id, scale) in enumerate(zip(panels, ids,
scale_factors))`, building each fenestrated panel and attaching
`categories[i]`, `data_values[i]`, `normalized[i]` to its record. -/
def fenLoop {G B E : Type} (K : FenKernel G B E) (opening_shape : ℕ)
    (categories : List ℤ) (data_values : List ℚ) (normalized : PyVal) :
    List (G × String × ℚ) → ℕ → (ℕ → List Point3) → ℕ →
    Except PyErr (List (G ⊕ B) × List FenInfo × (ℕ → List Point3) × ℕ)
  | [], _, heap, next => .ok ([], [], heap, next)
  | (panel, panel_id, scale) :: rest, i, heap, next => do
    let r ← create_fenestrated_panel K heap next panel opening_shape scale panel_id
    let cat ← pyIndexList categories i
    let dv ← pyIndexList data_values i
    let nv ← pyIndex normalized i
    let info := { r.2.1 with category := some cat, data_value := some dv,
                             normalized_value := some nv }
    let rec' ← fenLoop K opening_shape categories data_values normalized rest
                 (i + 1) r.2.2.1 r.2.2.2
    .ok (r.1 :: rec'.1, info :: rec'.2.1, rec'.2.2.1, rec'.2.2.2)

/-- Embeds `adaptive_fenestration` (adaptive_fenestration.py lines
149-205): length validation, normalization, binning, scale-factor
computation, then the per-panel fenestration loop. -/
def adaptive_fenestration {G B E : Type} (K : FenKernel G B E)
    (heap : ℕ → List Point3) (next : ℕ)
    (panels : List G) (ids : List String) (data_values : List ℚ)
    (opening_shape : ℕ) (min_opening max_opening : ℚ)
    (num_categories : ℤ) (invert : Bool) :
    Except PyErr (List (G ⊕ B) × List FenInfo × List ℤ × List ℚ ×
                  (ℕ → List Point3) × ℕ) := do
  if panels.length ≠ data_values.length then throw .valueError else
  if panels.length ≠ ids.length then throw .valueError else do
    let normalized ← normalize_data data_values
    let categories ← bin_into_categories normalized num_categories
    let items ← pyIterate normalized
    let scale_factors ← items.mapM (fun v =>
      match v with
      | .num q => .ok (calculate_opening_scale q min_opening max_opening invert)
      | _ => (.error .typeError : Except PyErr ℚ))
    let r ← fenLoop K opening_shape categories data_values normalized
              (panels.zip (ids.zip scale_factors)) 0 heap next
    .ok (r.1, r.2.1, categories, scale_factors, r.2.2.1, r.2.2.2)

/-- Decimal representation of a natural number (digits of `Nat.digits 10`,
most significant first), as used by Python's `str`/format. -/
def natRepr (n : ℕ) : String :=
  if n = 0 then "0" else ⟨((Nat.digits 10 n).map Nat.digitChar).reverse⟩

/-- Python format spec `{:02d}` on a nonnegative integer: pad with a
leading zero to width two. -/
def pad2 (n : ℕ) : String :=
  if n < 10 then "0" ++ natRepr n else natRepr n

/-- The id format of panelizer.py line 18: `f"{prefix}-{u:02d}-{v:02d}"`. -/
def panelId ( pfx : String) (u v : ℕ) : String :=
  pfx ++ "-" ++ pad2 u ++ "-" ++ pad2 v

/-- Embeds `generate_panel_ids` (panelizer.py lines 11-19): outer loop on
`v in range(1, v_count+1)`, inner loop on `u in range(1, u_count+1)`. -/
def generate_panel_ids (u_count v_count : ℤ) ( pfx : String) :
    Except PyErr (List String) :=
  if u_count ≤ 0 ∨ v_count ≤ 0 then .error .valueError
  else
    .ok (((List.range v_count.toNat).map (fun vj =>
      (List.range u_count.toNat).map (fun ui =>
        panelId pfx (ui + 1) (vj + 1)))).flatten)

/-- The id list produced by the generator's nested loops for positive
counts: V outer from 1 to v_count, U inner from 1 to u_count. -/
def panelIdsList (uc vc : ℕ) ( pfx : String) : List String :=
  ((List.range vc).map (fun vj =>
    (List.range uc).map (fun ui => panelId pfx (ui + 1) (vj + 1)))).flatten

/-- A parameter interval of a parametric surface (rg.Interval), with
`ParameterAt` as the affine blend of its two endpoints. -/
structure RgInterval where
  t0 : ℚ
  t1 : ℚ

/-- Embeds `rg.Interval.ParameterAt`: normalized parameter to domain value. -/
def RgInterval.parameterAt (I : RgInterval) (t : ℚ) : ℚ :=
  (1 - t) * I.t0 + t * I.t1

/-- A parametric surface as the panelizer uses it: U and V domains plus
point evaluation (`srf.Domain(0)`, `srf.Domain(1)`, `srf.PointAt`). -/
structure Srf where
  uDom : RgInterval
  vDom : RgInterval
  pointAt : ℚ → ℚ → Point3

/-- The surface-like input variants accepted by `panelize_surface`
(Surface / BrepFace / Brep / anything else). -/
inductive SurfaceInput where
  | srf (s : Srf)
  | face (underlying : Srf)
  | brep (faces : List Srf)
  | other

/-- The input-coercion block of panelizer.py lines 38-48: a BrepFace
contributes its underlying surface, a Brep its first face's underlying
surface (ValueError when it has no faces), any other shape TypeError. -/
def coerceSurface : SurfaceInput → Except PyErr Srf
  | .srf s => .ok s
  | .face s => .ok s
  | .brep [] => .error .valueError
  | .brep (f :: _) => .ok f
  | .other => .error .typeError

/-- Embeds `panelize_surface` (panelizer.py lines 22-87), abstracted over
the kernel's `rg.NurbsSurface.CreateFromCorners` (`none` models a failed
patch construction, which the code turns into a RuntimeError).  Cell
corners are taken from consecutive pairs of the evenly spaced parameter
lists, V-outer and U-inner, matching the id order. -/
def panelize_surface {PT : Type}
    (createFromCorners : Point3 → Point3 → Point3 → Point3 → Option PT)
    (surface_input : Option SurfaceInput) (u_count v_count : ℤ)
    ( pfx : String) : Except PyErr (List PT × List String) := do
  match surface_input with
  | none => throw .valueError
  | some inp =>
    if u_count ≤ 0 ∨ v_count ≤ 0 then throw .valueError else do
      let srf ← coerceSurface inp
      let u_params := (List.range (u_count.toNat + 1)).map
        (fun (i : ℕ) => srf.uDom.parameterAt ((i : ℚ) / (u_count : ℚ)))
      let v_params := (List.range (v_count.toNat + 1)).map
        (fun (j : ℕ) => srf.vDom.parameterAt ((j : ℚ) / (v_count : ℚ)))
      let ids ← generate_panel_ids u_count v_count pfx
      let rows ← (v_params.zip v_params.tail).mapM (fun vp =>
        (u_params.zip u_params.tail).mapM (fun up =>
          match createFromCorners
              (srf.pointAt up.1 vp.1) (srf.pointAt up.2 vp.1)
              (srf.pointAt up.2 vp.2) (srf.pointAt up.1 vp.2) with
          | some patch => .ok patch
          | none => (.error .runtimeError : Except PyErr PT)))
      .ok (rows.flatten, ids)

/-- The evenly spaced parameter values of panelizer.py lines 55-62, as a
function of a domain and a count: `count + 1` samples of
`dom.ParameterAt(i / float(count))`. -/
def paramList (dom : RgInterval) (count : ℤ) : List ℚ :=
  (List.range (count.toNat + 1)).map
    (fun (i : ℕ) => dom.parameterAt ((i : ℚ) / (count : ℚ)))

/-- Consecutive pairs `(l[i], l[i+1])` of a list, as used for the cell
bounds in both parameter directions. -/
def consPairs (l : List ℚ) : List (ℚ × ℚ) := l.zip l.tail

/-- A tower curve value: its defining points and whether it is closed
(`IsClosed`).  Affine transforms act pointwise on the points and do not
change closedness. -/
structure TCurve where
  pts : List Point3
  closed : Bool

/-- In-place `curve.Transform(xform)`: apply the transform to the curve's
defining points. -/
def transformCurve (f : Point3 → Point3) (c : TCurve) : TCurve :=
  ⟨c.pts.map f, c.closed⟩

/-- Center of the axis-aligned bounding box of a point list
(`GetBoundingBox(True).Center`). -/
def bboxCenter (pts : List Point3) : Point3 :=
  match pts with
  | [] => ⟨0, 0, 0⟩
  | p :: ps =>
    ⟨(listMin p.x (ps.map Point3.x) + listMax p.x (ps.map Point3.x)) / 2,
     (listMin p.y (ps.map Point3.y) + listMax p.y (ps.map Point3.y)) / 2,
     (listMin p.z (ps.map Point3.z) + listMax p.z (ps.map Point3.z)) / 2⟩

/-- Embeds `rg.Transform.Identity` as a map on points. -/
def idTransform : Point3 → Point3 := fun p => p

/-- RhinoCommon transform combination `A * B`: the combined transform
applies `B` first, then `A` (matrix product acting on column vectors). -/
def transMul (a b : Point3 → Point3) : Point3 → Point3 := fun p => a (b p)

/-- Embeds `rg.Transform.Translation(dx, dy, dz)` as a map on points. -/
def translation (dx dy dz : ℚ) : Point3 → Point3 :=
  fun p => ⟨p.x + dx, p.y + dy, p.z + dz⟩

/-- Embeds `rg.Transform.Rotation(angle, rg.Vector3d.ZAxis, center)` as a
map on points, parameterised by `c = cos angle` and `s = sin angle`:
rotate about the vertical axis through `center`. -/
def rotationZ (c s : ℚ) (center : Point3) : Point3 → Point3 :=
  fun p =>
    ⟨center.x + c * (p.x - center.x) - s * (p.y - center.y),
     center.y + s * (p.x - center.x) + c * (p.y - center.y),
     center.z + (p.z - center.z)⟩

/-- The per-floor composed transform of tower_twister.py lines 55-68:
start from the identity, right-multiply the translation to `z = i *
floor_height`, and (when the cumulative rotation `i * rotation_per_floor`
degrees is nonzero) right-multiply the rotation about the Z axis through
the axis point elevated to `z`.  `cosF`/`sinF` supply the kernel's cosine
and sine at a radian value. -/
def floorTransform (cosF sinF : ℚ → ℚ) (axis_point : Point3)
    (floor_height : ℚ) (rotation_per_floor : ℤ) (i : ℤ) :
    Point3 → Point3 :=
  let z_offset : ℚ := (i : ℚ) * floor_height
  let rotation_degrees : ℤ := i * rotation_per_floor
  let t1 := transMul idTransform (translation 0 0 z_offset)
  if rotation_degrees ≠ 0 then
    let angle_rad : ℚ := (rotation_degrees : ℚ) * (314159265359 / 100000000000 / 180)
    let axis_elevated : Point3 := ⟨axis_point.x, axis_point.y, z_offset⟩
    transMul t1 (rotationZ (cosF angle_rad) (sinF angle_rad) axis_elevated)
  else
    t1

/-- The floor-generation loop of tower_twister.py lines 52-72: for each
floor index, `DuplicateCurve` the heap-resident base curve into a fresh
id and transform that fresh object in place.  Returns the final heap and
counter plus the allocated floor-curve ids in floor order. -/
def floorLoop (xf : ℤ → Point3 → Point3) (baseId : ℕ) :
    List ℤ → (ℕ → TCurve) → ℕ → ((ℕ → TCurve) × ℕ × List ℕ)
  | [], heap, next => (heap, next, [])
  | i :: rest, heap, next =>
    let new_curve := next
    let heap1 := hupd heap new_curve (heap baseId)
    let heap2 := hupd heap1 new_curve (transformCurve (xf i) (heap1 new_curve))
    let r := floorLoop xf baseId rest heap2 (next + 1)
    (r.1, r.2.1, new_curve :: r.2.2)

/-- The lofting loop of tower_twister.py lines 74-89: for each pair of
consecutive floor curves, `rg.Brep.CreateFromLoft`; a missing or empty
result raises, otherwise the first brep's faces' underlying surfaces are
appended in order.  A brep is modelled as the list of its faces'
underlying surfaces. -/
def loftAll {S : Type} (loft : TCurve → TCurve → Option (List (List S))) :
    List TCurve → Except PyErr (List S)
  | [] => .ok []
  | [_] => .ok []
  | a :: b :: rest => do
    let brep ← match loft a b with
      | some (brep0 :: _) => .ok brep0
      | some [] => .error .runtimeError
      | none => (.error .runtimeError : Except PyErr (List S))
    let r ← loftAll loft (b :: rest)
    .ok (brep ++ r)

/-- Embeds `twist_tower` (tower_twister.py lines 12-91).  The base curve
is a heap-resident object (`none` models passing Python `None`); the
kernel's loft and its cosine/sine are abstract parameters.  Returns the
surfaces, the floor curves (final values of the allocated objects), and
the final heap and allocation counter. -/
def twist_tower {S : Type} (cosF sinF : ℚ → ℚ)
    (loft : TCurve → TCurve → Option (List (List S)))
    (heap : ℕ → TCurve) (next : ℕ)
    (base_curve : Option ℕ) (floor_count : ℤ) (floor_height : ℚ)
    (rotation_per_floor : ℤ) (axis_point : Option Point3) :
    Except PyErr (List S × List TCurve × (ℕ → TCurve) × ℕ) := do
  match base_curve with
  | none => throw .valueError
  | some bid =>
    if !(heap bid).closed then throw .valueError else
    if floor_count < 2 then throw .valueError else
    if floor_height ≤ 0 then throw .valueError else do
      let axis := match axis_point with
        | none => bboxCenter (heap bid).pts
        | some a => a
      let iList := (List.range floor_count.toNat).map Int.ofNat
      let r := floorLoop
        (floorTransform cosF sinF axis floor_height rotation_per_floor)
        bid iList heap next
      let floor_curves := r.2.2.map r.1
      let surfaces ← loftAll loft floor_curves
      .ok (surfaces, floor_curves, r.1, r.2.1)

/-- Degrees to radians with the code's literal `3.14159265359 / 180.0`. -/
def degToRad (d : ℤ) : ℚ :=
  (d : ℚ) * (314159265359 / 100000000000 / 180)

theorem listMin_all_eq (x : ℚ) :
    ∀ (xs : List ℚ), (∀ y ∈ xs, y = x) → listMin x xs = x := by
  intro xs
  induction xs with
  | nil => intro _; simp [listMin]
  | cons a t ih =>
    intro h
    have ha : a = x := h a (by simp)
    have ht : ∀ y ∈ t, y = x := fun y hy => h y (by simp [hy])
    have : listMin x (a :: t) = listMin x t := by
      simp [listMin, List.foldl, ha]
    rw [this]
    exact ih ht

theorem listMax_all_eq (x : ℚ) :
    ∀ (xs : List ℚ), (∀ y ∈ xs, y = x) → listMax x xs = x := by
  intro xs
  induction xs with
  | nil => intro _; simp [listMax]
  | cons a t ih =>
    intro h
    have ha : a = x := h a (by simp)
    have ht : ∀ y ∈ t, y = x := fun y hy => h y (by simp [hy])
    have : listMax x (a :: t) = listMax x t := by
      simp [listMax, List.foldl, ha]
    rw [this]
    exact ih ht

/-- C1 counterexample: `normalize_data([5,5,5])` is the 2-tuple
`([0.5,0.5,0.5], [5,5,5])`, not the bare list `[0.5,0.5,0.5]` the claim
asserts. -/
theorem C1_counterexample :
    normalize_data [5, 5, 5] =
      .ok (.tuple2 (.list [.num (1/2), .num (1/2), .num (1/2)])
                   (.list [.num 5, .num 5, .num 5])) ∧
    normalize_data [5, 5, 5] ≠
      .ok (.list [.num (1/2), .num (1/2), .num (1/2)]) := by
  refine ⟨rfl, ?_⟩
  intro h
  have h1 : normalize_data [5, 5, 5] =
      .ok (.tuple2 (.list [.num (1/2), .num (1/2), .num (1/2)])
                   (.list [.num 5, .num 5, .num 5])) := rfl
  rw [h1] at h
  exact PyVal.noConfusion (Except.ok.inj h)

/-- C1 (amended): on a non-empty all-equal input, `normalize_data`
returns the 2-tuple of the all-`0.5` normalized list and the all-`5`
categories list (each of the input's length), not a bare list. -/
theorem C1_normalize_degenerate (x : ℚ) (xs : List ℚ)
    (h : ∀ y ∈ xs, y = x) :
    normalize_data (x :: xs) =
      .ok (.tuple2 (.list (List.replicate (x :: xs).length (.num (1/2))))
                   (.list (List.replicate (x :: xs).length (.num 5)))) := by
  have hmin := listMin_all_eq x xs h
  have hmax := listMax_all_eq x xs h
  simp [normalize_data, hmin, hmax]

/-- C1 witness: the amended statement evaluated at `[5,5,5]`. -/
theorem C1_witness :
    (∀ y ∈ [(5 : ℚ), 5], y = 5) ∧
    normalize_data [5, 5, 5] =
      .ok (.tuple2 (.list (List.replicate 3 (.num (1/2))))
                   (.list (List.replicate 3 (.num 5)))) := by
  refine ⟨by decide, ?_⟩
  exact C1_normalize_degenerate 5 [5, 5] (by decide)

theorem mapM_binOne_nums (n : ℤ) (hn : 0 ≤ n) :
    ∀ (xs : List ℚ), (∀ q ∈ xs, 0 ≤ q) →
      List.mapM (binOne n) (xs.map PyVal.num) =
        .ok (xs.map (fun q => min ⌊q * (n : ℚ)⌋ (n - 1))) := by
  intro xs
  induction xs with
  | nil => intro _; rfl
  | cons a t ih =>
    intro h
    have ha : (0 : ℚ) ≤ a := h a (by simp)
    have ht : ∀ q ∈ t, (0 : ℚ) ≤ q := fun q hq => h q (by simp [hq])
    have hint : pyInt (a * (n : ℚ)) = ⌊a * (n : ℚ)⌋ := by
      unfold pyInt
      exact if_pos (mul_nonneg ha (by exact_mod_cast hn))
    simp only [List.map_cons, List.mapM_cons, binOne, hint, ih ht]
    rfl

theorem bin_into_categories_list (l : List PyVal) (n : ℤ) :
    bin_into_categories (.list l) n = List.mapM (binOne n) l := rfl

/-- C9: `bin_into_categories` maps each normalized value `q ∈ [0,1]` to
`min(floor(q * num_categories), num_categories - 1)`; every resulting
category lies in `[0, num_categories)`; and `bin_into_categories([1.0],
11) = [10]` (the value 1.0 is clamped into the last bin). -/
theorem C9_bin_into_categories (xs : List ℚ) (n : ℤ)
    (hx : ∀ q ∈ xs, 0 ≤ q ∧ q ≤ 1) (hn : 1 ≤ n) :
    bin_into_categories (.list (xs.map PyVal.num)) n =
      .ok (xs.map (fun q => min ⌊q * (n : ℚ)⌋ (n - 1))) ∧
    (∀ c ∈ xs.map (fun q => min ⌊q * (n : ℚ)⌋ (n - 1)), 0 ≤ c ∧ c < n) ∧
    bin_into_categories (.list [.num 1]) 11 = .ok [10] := by
  refine ⟨?_, ?_, ?_⟩
  · rw [bin_into_categories_list]
    exact mapM_binOne_nums n (by omega) xs (fun q hq => (hx q hq).1)
  · intro c hc
    simp only [List.mem_map] at hc
    obtain ⟨q, hq, rfl⟩ := hc
    obtain ⟨hq0, _⟩ := hx q hq
    constructor
    · refine le_min ?_ (by omega)
      exact Int.floor_nonneg.mpr (mul_nonneg hq0 (by exact_mod_cast by omega))
    · exact lt_of_le_of_lt (min_le_right _ _) (by omega)
  · rw [bin_into_categories_list]
    have h := mapM_binOne_nums 11 (by norm_num) [1] (by norm_num)
    simp only [List.map_cons, List.map_nil] at h ⊢
    rw [h]
    norm_num

/-- C9 witness: the theorem evaluated at `xs = [1]`, `n = 11`. -/
theorem C9_witness :
    (∀ q ∈ [(1 : ℚ)], 0 ≤ q ∧ q ≤ 1) ∧ (1 : ℤ) ≤ 11 ∧
    bin_into_categories (.list ([(1 : ℚ)].map PyVal.num)) 11 =
      .ok ([(1 : ℚ)].map (fun q => min ⌊q * ((11 : ℤ) : ℚ)⌋ ((11 : ℤ) - 1))) := by
  refine ⟨by norm_num, by norm_num, ?_⟩
  exact (C9_bin_into_categories [1] 11 (by norm_num) (by norm_num)).1

/-- C10: `create_fenestrated_panel` with `scale_factor = 0` returns the
original panel object (no cutting) together with a metrics record whose
`opening_scale`, `opening_area` and `opening_percent` are all zero, and
leaves the object heap untouched. -/
theorem C10_create_fenestrated_panel_scale_zero {G B E : Type}
    (K : FenKernel G B E) (heap : ℕ → List Point3) (next : ℕ)
    (panel : G) (opening_shape : ℕ) (panel_id : String) :
    create_fenestrated_panel K heap next panel opening_shape 0 panel_id =
      .ok (.inl panel,
        { id := panel_id, opening_scale := 0, opening_area := 0,
          opening_percent := 0, panel_area := K.areaG panel }, heap, next) := by
  simp [create_fenestrated_panel]

theorem floorTransform_rot_comp_trans (cosF sinF : ℚ → ℚ)
    (axis_point : Point3) (floor_height : ℚ) (rotation_per_floor i : ℤ)
    (h : i * rotation_per_floor ≠ 0) (p : Point3) :
    floorTransform cosF sinF axis_point floor_height rotation_per_floor i p =
      rotationZ (cosF (degToRad (i * rotation_per_floor)))
                (sinF (degToRad (i * rotation_per_floor)))
                ⟨axis_point.x, axis_point.y, (i : ℚ) * floor_height⟩
        (translation 0 0 ((i : ℚ) * floor_height) p) := by
  simp only [floorTransform, degToRad, if_pos h, transMul, idTransform,
    translation, rotationZ, Point3.mk.injEq]
  refine ⟨by ring, by ring, by ring⟩

/-- C3: for a floor with nonzero cumulative rotation, the single composed
transform built by `twist_tower` equals, as a function on points, the
translation to `z = i * floor_height` applied first followed by the
rotation by `i * rotation_per_floor` degrees about the Z axis through the
axis point elevated to `z` applied second. -/
theorem C3_twist_transform_decomposition (cosF sinF : ℚ → ℚ)
    (axis_point : Point3) (floor_height : ℚ) (rotation_per_floor i : ℤ)
    (h : i * rotation_per_floor ≠ 0) :
    ∀ p : Point3,
      floorTransform cosF sinF axis_point floor_height rotation_per_floor i p =
        rotationZ (cosF (degToRad (i * rotation_per_floor)))
                  (sinF (degToRad (i * rotation_per_floor)))
                  ⟨axis_point.x, axis_point.y, (i : ℚ) * floor_height⟩
          (translation 0 0 ((i : ℚ) * floor_height) p) :=
  fun p => floorTransform_rot_comp_trans cosF sinF axis_point floor_height
    rotation_per_floor i h p

/-- C3 witness: the decomposition at floor 1 with 90-degree increments
and a sample cosine/sine pair. -/
theorem C3_witness :
    ((1 : ℤ) * 90 ≠ 0) ∧
    (∀ p : Point3,
      floorTransform (fun _ => 3/5) (fun _ => 4/5) ⟨2, 7, 0⟩ 3 90 1 p =
        rotationZ ((fun (_ : ℚ) => (3 : ℚ)/5) (degToRad ((1 : ℤ) * 90)))
                  ((fun (_ : ℚ) => (4 : ℚ)/5) (degToRad ((1 : ℤ) * 90)))
                  ⟨(2 : ℚ), 7, ((1 : ℤ) : ℚ) * 3⟩
          (translation 0 0 (((1 : ℤ) : ℚ) * 3) p)) :=
  ⟨by decide,
   C3_twist_transform_decomposition (fun _ => 3/5) (fun _ => 4/5)
     ⟨2, 7, 0⟩ 3 90 1 (by decide)⟩

theorem exceptOkBind {ε α β : Type} (a : α) (f : α → Except ε β) :
    (Except.ok a >>= f) = f a := rfl

theorem exceptErrorBind {ε α β : Type} (e : ε) (f : α → Except ε β) :
    ((Except.error e : Except ε α) >>= f) = Except.error e := rfl

theorem normalize_data_degenerate (x : ℚ) (xs : List ℚ)
    (h : ∀ y ∈ xs, y = x) :
    normalize_data (x :: xs) =
      .ok (.tuple2 (.list (List.replicate (x :: xs).length (.num (1/2))))
                   (.list (List.replicate (x :: xs).length (.num 5)))) := by
  have hmin := listMin_all_eq x xs h
  have hmax := listMax_all_eq x xs h
  simp [normalize_data, hmin, hmax]

/-- C7: `adaptive_fenestration` raises the input-validation error
(`ValueError`) whenever the three index-aligned sequences differ in
length, and in that case the whole call evaluates to that error — no
output sequences and no heap change are produced. -/
theorem C7_adaptive_fenestration_length_mismatch {G B E : Type}
    (K : FenKernel G B E) (heap : ℕ → List Point3) (next : ℕ)
    (panels : List G) (ids : List String) (data_values : List ℚ)
    (opening_shape : ℕ) (min_opening max_opening : ℚ)
    (num_categories : ℤ) (invert : Bool)
    (h : ¬(panels.length = ids.length ∧ panels.length = data_values.length)) :
    adaptive_fenestration K heap next panels ids data_values opening_shape
      min_opening max_opening num_categories invert = .error .valueError := by
  unfold adaptive_fenestration
  by_cases h1 : panels.length = data_values.length
  · have h2 : panels.length ≠ ids.length := fun he => h ⟨he, h1⟩
    rw [if_neg (not_not_intro h1), if_pos h2]
    rfl
  · rw [if_pos h1]
    rfl

/-- C7 witness: one panel, one id, no data values. -/
theorem C7_witness :
    ¬(([()] : List Unit).length = ["a"].length ∧
      ([()] : List Unit).length = ([] : List ℚ).length) ∧
    adaptive_fenestration
      (⟨fun _ => none, fun _ => (), fun _ _ => none, fun _ => (),
        fun _ _ _ => none, fun _ => 0, fun _ => 0⟩ :
        FenKernel Unit Unit Unit)
      (fun _ => []) 0 [()] ["a"] [] 0 0 (1/2) 11 true = .error .valueError :=
  ⟨by simp, C7_adaptive_fenestration_length_mismatch _ _ _ _ _ _ _ _ _ _ _
    (by simp)⟩

/-- C2: on length-matched, non-empty, all-equal data,
`adaptive_fenestration` raises (`TypeError`) and produces none of its
four outputs: the degenerate branch of `normalize_data` returns a
2-tuple, which `bin_into_categories` cannot process. -/
theorem C2_adaptive_fenestration_uniform_data_raises {G B E : Type}
    (K : FenKernel G B E) (heap : ℕ → List Point3) (next : ℕ)
    (panels : List G) (ids : List String) (x : ℚ) (xs : List ℚ)
    (opening_shape : ℕ) (min_opening max_opening : ℚ)
    (num_categories : ℤ) (invert : Bool)
    (hlen1 : panels.length = (x :: xs).length)
    (hlen2 : panels.length = ids.length)
    (hall : ∀ y ∈ xs, y = x) :
    adaptive_fenestration K heap next panels ids (x :: xs) opening_shape
      min_opening max_opening num_categories invert = .error .typeError := by
  unfold adaptive_fenestration
  rw [if_neg (not_not_intro hlen1), if_neg (not_not_intro hlen2)]
  rw [normalize_data_degenerate x xs hall, exceptOkBind]
  rfl

/-- C2 witness: three trivial panels with the uniform data `[5,5,5]`. -/
theorem C2_witness :
    ([(), (), ()] : List Unit).length = [(5 : ℚ), 5, 5].length ∧
    ([(), (), ()] : List Unit).length = ["a", "b", "c"].length ∧
    adaptive_fenestration
      (⟨fun _ => none, fun _ => (), fun _ _ => none, fun _ => (),
        fun _ _ _ => none, fun _ => 0, fun _ => 0⟩ :
        FenKernel Unit Unit Unit)
      (fun _ => []) 1 [(), (), ()] ["a", "b", "c"] [5, 5, 5] 0 0 (1/2) 11 true =
      .error .typeError :=
  ⟨rfl, rfl, C2_adaptive_fenestration_uniform_data_raises _ _ _ _ _ 5 [5, 5]
    _ _ _ _ _ rfl rfl (by decide)⟩

theorem floorLoop_heap_frame (xf : ℤ → Point3 → Point3) (baseId : ℕ) :
    ∀ (l : List ℤ) (heap : ℕ → TCurve) (next j : ℕ), j < next →
      (floorLoop xf baseId l heap next).1 j = heap j := by
  intro l
  induction l with
  | nil => intro heap next j _; rfl
  | cons i rest ih =>
    intro heap next j hj
    show (floorLoop xf baseId (i :: rest) heap next).1 j = heap j
    simp only [floorLoop]
    rw [ih _ _ j (by omega)]
    simp [hupd, Nat.ne_of_lt hj]

theorem exceptBindOkInv {ε α β : Type} {x : Except ε α}
    {f : α → Except ε β} {b : β} (h : (x >>= f) = .ok b) :
    ∃ a, x = .ok a ∧ f a = .ok b := by
  cases x with
  | error e => exact Except.noConfusion h
  | ok a => exact ⟨a, rfl, h⟩

theorem create_fenestrated_panel_frame {G B E : Type} (K : FenKernel G B E)
    (heap : ℕ → List Point3) (next : ℕ) (panel : G) (opening_shape : ℕ)
    (scale_factor : ℚ) (panel_id : String)
    (r : (G ⊕ B) × FenInfo × (ℕ → List Point3) × ℕ)
    (hr : create_fenestrated_panel K heap next panel opening_shape
      scale_factor panel_id = .ok r) :
    (∀ j, j < next → r.2.2.1 j = heap j) ∧ next ≤ r.2.2.2 := by
  unfold create_fenestrated_panel at hr
  by_cases hsc : scale_factor = 0
  · rw [if_pos hsc] at hr
    cases hr
    exact ⟨fun j _ => rfl, le_refl next⟩
  · rw [if_neg hsc] at hr
    cases hfr : K.frameAt panel with
    | none =>
      rw [hfr] at hr
      exact Except.noConfusion hr
    | some fr =>
      rw [hfr] at hr
      cases hr
      refine ⟨?_, Nat.le_succ next⟩
      intro j hj
      simp [hupd, Nat.ne_of_lt hj]

theorem fenLoop_heap_frame {G B E : Type} (K : FenKernel G B E)
    (opening_shape : ℕ) (categories : List ℤ) (data_values : List ℚ)
    (normalized : PyVal) :
    ∀ (l : List (G × String × ℚ)) (i : ℕ) (heap : ℕ → List Point3) (next : ℕ)
      (r : List (G ⊕ B) × List FenInfo × (ℕ → List Point3) × ℕ),
      fenLoop K opening_shape categories data_values normalized l i heap next =
        .ok r →
      (∀ j, j < next → r.2.2.1 j = heap j) ∧ next ≤ r.2.2.2 := by
  intro l
  induction l with
  | nil =>
    intro i heap next r hr
    cases hr
    exact ⟨fun j _ => rfl, le_refl next⟩
  | cons a rest ih =>
    obtain ⟨panel, pid, sc⟩ := a
    intro i heap next r hr
    simp only [fenLoop] at hr
    obtain ⟨r1, hc, hr⟩ := exceptBindOkInv hr
    obtain ⟨cat, hcat, hr⟩ := exceptBindOkInv hr
    obtain ⟨dv, hdv, hr⟩ := exceptBindOkInv hr
    obtain ⟨nv, hnv, hr⟩ := exceptBindOkInv hr
    obtain ⟨r2, hrec, hr⟩ := exceptBindOkInv hr
    cases hr
    have h1 := create_fenestrated_panel_frame K heap next panel opening_shape
      sc pid r1 hc
    have h2 := ih (i + 1) r1.2.2.1 r1.2.2.2 r2 hrec
    refine ⟨?_, le_trans h1.2 h2.2⟩
    intro j hj
    show r2.2.2.1 j = heap j
    rw [h2.1 j (lt_of_lt_of_le hj h1.2), h1.1 j hj]

/-- C8: neither generator mutates caller-supplied geometry.  If
`twist_tower` succeeds, every object that existed before the call (heap
id below the allocation counter, in particular the base curve) has
exactly its old value in the final heap; likewise a successful
`create_fenestrated_panel` — and hence a successful
`adaptive_fenestration` call, whose loop allocates a fresh duplicate per
panel — leaves every pre-existing object (in particular the shared
opening template) unchanged: all transforms hit only freshly allocated
duplicates. -/
theorem C8_no_caller_geometry_mutated {S G B E : Type}
    (cosF sinF : ℚ → ℚ) (loft : TCurve → TCurve → Option (List (List S)))
    (theap : ℕ → TCurve) (tnext : ℕ) (base_curve : Option ℕ)
    (floor_count : ℤ) (floor_height : ℚ) (rotation_per_floor : ℤ)
    (axis_point : Option Point3)
    (K : FenKernel G B E) (fheap : ℕ → List Point3) (fnext : ℕ)
    (panel : G) (opening_shape : ℕ) (scale_factor : ℚ) (panel_id : String)
    (apanels : List G) (aids : List String) (adata : List ℚ)
    (amin amax : ℚ) (ancats : ℤ) (ainv : Bool) :
    (∀ (r : List S × List TCurve × (ℕ → TCurve) × ℕ),
        twist_tower cosF sinF loft theap tnext base_curve floor_count
          floor_height rotation_per_floor axis_point = .ok r →
        ∀ j, j < tnext → r.2.2.1 j = theap j) ∧
    (∀ (r : (G ⊕ B) × FenInfo × (ℕ → List Point3) × ℕ),
        create_fenestrated_panel K fheap fnext panel opening_shape
          scale_factor panel_id = .ok r →
        ∀ j, j < fnext → r.2.2.1 j = fheap j) ∧
    (∀ (r : List (G ⊕ B) × List FenInfo × List ℤ × List ℚ ×
        (ℕ → List Point3) × ℕ),
        adaptive_fenestration K fheap fnext apanels aids adata opening_shape
          amin amax ancats ainv = .ok r →
        ∀ j, j < fnext → r.2.2.2.2.1 j = fheap j) := by
  refine ⟨?_, ?_, ?_⟩
  · intro r hr j hj
    unfold twist_tower at hr
    cases base_curve with
    | none => exact Except.noConfusion hr
    | some bid =>
      dsimp only at hr
      by_cases hcl : (theap bid).closed
      · rw [if_neg (by simp [hcl])] at hr
        by_cases hfc : floor_count < 2
        · rw [if_pos hfc] at hr
          exact Except.noConfusion hr
        · rw [if_neg hfc] at hr
          by_cases hfh : floor_height ≤ 0
          · rw [if_pos hfh] at hr
            exact Except.noConfusion hr
          · rw [if_neg hfh] at hr
            obtain ⟨s, _, hok⟩ := exceptBindOkInv hr
            cases hok
            exact floorLoop_heap_frame _ _ _ _ _ _ hj
      · rw [if_pos (by simp [hcl])] at hr
        exact Except.noConfusion hr
  · intro r hr j hj
    exact (create_fenestrated_panel_frame K fheap fnext panel opening_shape
      scale_factor panel_id r hr).1 j hj
  · intro r hr j hj
    unfold adaptive_fenestration at hr
    by_cases h1 : apanels.length = adata.length
    · rw [if_neg (not_not_intro h1)] at hr
      by_cases h2 : apanels.length = aids.length
      · rw [if_neg (not_not_intro h2)] at hr
        obtain ⟨nv, hnv, hr⟩ := exceptBindOkInv hr
        obtain ⟨cats, hcats, hr⟩ := exceptBindOkInv hr
        obtain ⟨items, hitems, hr⟩ := exceptBindOkInv hr
        obtain ⟨scales, hscales, hr⟩ := exceptBindOkInv hr
        obtain ⟨rr, hfl, hr⟩ := exceptBindOkInv hr
        cases hr
        show rr.2.2.1 j = fheap j
        exact (fenLoop_heap_frame K opening_shape cats adata nv
          (apanels.zip (aids.zip scales)) 0 fheap fnext rr hfl).1 j hj
      · rw [if_pos h2] at hr
        exact Except.noConfusion hr
    · rw [if_pos h1] at hr
      exact Except.noConfusion hr

/-- C8 witness: a 2-floor tower over a trivial closed curve, a
scale-zero fenestrated panel, and a full two-panel adaptive run with
non-degenerate data `[0, 10]`; in each case the caller-held object at
heap id 0 is unchanged after the call. -/
theorem C8_witness :
    twist_tower (fun _ => 1) (fun _ => 0) (fun _ _ => some [[()]])
        (fun _ => (⟨[], true⟩ : TCurve)) 1 (some 0) 2 1 0 (some ⟨0, 0, 0⟩) =
      .ok ([()], [⟨[], true⟩, ⟨[], true⟩],
        (floorLoop (floorTransform (fun _ => 1) (fun _ => 0) ⟨0, 0, 0⟩ 1 0) 0
          [0, 1] (fun _ => (⟨[], true⟩ : TCurve)) 1).1,
        (floorLoop (floorTransform (fun _ => 1) (fun _ => 0) ⟨0, 0, 0⟩ 1 0) 0
          [0, 1] (fun _ => (⟨[], true⟩ : TCurve)) 1).2.1) ∧
    (0 : ℕ) < 1 ∧
    (floorLoop (floorTransform (fun _ => 1) (fun _ => 0) ⟨0, 0, 0⟩ 1 0) 0
        [0, 1] (fun _ => (⟨[], true⟩ : TCurve)) 1).1 0 = ⟨[], true⟩ ∧
    create_fenestrated_panel
      (⟨fun _ => some ⟨⟨0, 0, 0⟩, ⟨1, 0, 0⟩, ⟨0, 1, 0⟩, ⟨0, 0, 1⟩⟩,
        fun _ => (), fun _ _ => none, fun _ => (),
        fun _ _ _ => none, fun _ => 0, fun _ => 0⟩ : FenKernel Unit Unit Unit)
      (fun _ => ([] : List Point3)) 1 () 0 0 "p" =
      .ok (.inl (), ⟨"p", 0, 0, 0, 0, none, none, none⟩, fun _ => [], 1) ∧
    (fun _ => ([] : List Point3)) 0 = ([] : List Point3) ∧
    adaptive_fenestration
      (⟨fun _ => some ⟨⟨0, 0, 0⟩, ⟨1, 0, 0⟩, ⟨0, 1, 0⟩, ⟨0, 0, 1⟩⟩,
        fun _ => (), fun _ _ => none, fun _ => (),
        fun _ _ _ => none, fun _ => 0, fun _ => 0⟩ : FenKernel Unit Unit Unit)
      (fun _ => ([] : List Point3)) 1 [(), ()] ["a", "b"] [0, 10] 0 0 (1/2)
      11 true =
      .ok ([.inr (), .inl ()],
        [⟨"a", 1/2, 0, 0, 0, some 0, some 0, some (.num 0)⟩,
         ⟨"b", 0, 0, 0, 0, some 10, some 10, some (.num 1)⟩],
        [0, 10], [1/2, 0],
        hupd (hupd (hupd (fun _ => ([] : List Point3)) 1 []) 1 []) 1 [], 2) ∧
    (hupd (hupd (hupd (fun _ => ([] : List Point3)) 1 []) 1 []) 1 []) 0 =
      ([] : List Point3) := by
  have hcreate1 : create_fenestrated_panel
      (⟨fun _ => some ⟨⟨0, 0, 0⟩, ⟨1, 0, 0⟩, ⟨0, 1, 0⟩, ⟨0, 0, 1⟩⟩,
        fun _ => (), fun _ _ => none, fun _ => (),
        fun _ _ _ => none, fun _ => 0, fun _ => 0⟩ : FenKernel Unit Unit Unit)
      (fun _ => ([] : List Point3)) 1 () 0 (1/2) "a" =
      .ok (.inr (), ⟨"a", 1/2, 0, 0, 0, none, none, none⟩,
        hupd (hupd (hupd (fun _ => ([] : List Point3)) 1 []) 1 []) 1 [], 2) := by
    unfold create_fenestrated_panel
    rw [if_neg (show ¬(1/2 : ℚ) = 0 by norm_num)]
    dsimp only
    rw [if_pos (show (0 : ℚ) < 1/2 by norm_num)]
    rfl
  have hcreate2 : create_fenestrated_panel
      (⟨fun _ => some ⟨⟨0, 0, 0⟩, ⟨1, 0, 0⟩, ⟨0, 1, 0⟩, ⟨0, 0, 1⟩⟩,
        fun _ => (), fun _ _ => none, fun _ => (),
        fun _ _ _ => none, fun _ => 0, fun _ => 0⟩ : FenKernel Unit Unit Unit)
      (hupd (hupd (hupd (fun _ => ([] : List Point3)) 1 []) 1 []) 1 []) 2
      () 0 0 "b" =
      .ok (.inl (), ⟨"b", 0, 0, 0, 0, none, none, none⟩,
        hupd (hupd (hupd (fun _ => ([] : List Point3)) 1 []) 1 []) 1 [], 2) := rfl
  have hn : normalize_data [(0 : ℚ), 10] = .ok (.list [.num 0, .num 1]) := by
    have e0 : ((0 : ℚ) - 0) / ((10 : ℚ) - 0) = 0 := by norm_num
    have e1 : ((10 : ℚ) - 0) / ((10 : ℚ) - 0) = 1 := by norm_num
    unfold normalize_data
    simp only [show listMin 0 [(10 : ℚ)] = 0 from rfl,
      show listMax 0 [(10 : ℚ)] = 10 from rfl]
    rw [if_neg (show ¬(10 : ℚ) = 0 by norm_num)]
    simp only [List.map_cons, List.map_nil]
    rw [e0, e1]
  have b0 : binOne 11 (.num 0) = .ok 0 := by
    unfold binOne pyInt
    dsimp only
    rw [show (0 : ℚ) * ((11 : ℤ) : ℚ) = 0 by norm_num,
      if_pos (le_refl (0 : ℚ))]
    norm_num
  have b1 : binOne 11 (.num 1) = .ok 10 := by
    unfold binOne pyInt
    dsimp only
    rw [show (1 : ℚ) * ((11 : ℤ) : ℚ) = 11 by norm_num,
      if_pos (show (0 : ℚ) ≤ 11 by norm_num),
      show ⌊(11 : ℚ)⌋ = 11 from rfl]
    norm_num
  have hbin : bin_into_categories (.list [.num 0, .num 1]) 11 = .ok [0, 10] := by
    rw [bin_into_categories_list, List.mapM_cons, b0, exceptOkBind,
      List.mapM_cons, b1, exceptOkBind]
    rfl
  have s0 : calculate_opening_scale 0 0 (1/2) true = 1/2 := by
    unfold calculate_opening_scale
    norm_num
  have s1 : calculate_opening_scale 1 0 (1/2) true = 0 := by
    unfold calculate_opening_scale
    norm_num
  have hscales : List.mapM (fun v =>
      match v with
      | PyVal.num q => (Except.ok (calculate_opening_scale q 0 (1/2) true) :
          Except PyErr ℚ)
      | _ => (.error .typeError : Except PyErr ℚ)) [PyVal.num 0, PyVal.num 1] =
      .ok [1/2, 0] := by
    rw [List.mapM_cons]
    dsimp only
    rw [s0, exceptOkBind, List.mapM_cons]
    dsimp only
    rw [s1, exceptOkBind]
    rfl
  have hloop : fenLoop
      (⟨fun _ => some ⟨⟨0, 0, 0⟩, ⟨1, 0, 0⟩, ⟨0, 1, 0⟩, ⟨0, 0, 1⟩⟩,
        fun _ => (), fun _ _ => none, fun _ => (),
        fun _ _ _ => none, fun _ => 0, fun _ => 0⟩ : FenKernel Unit Unit Unit)
      0 [0, 10] [(0 : ℚ), 10] (.list [.num 0, .num 1])
      [((), "a", (1/2 : ℚ)), ((), "b", 0)] 0 (fun _ => ([] : List Point3)) 1 =
      .ok ([.inr (), .inl ()],
        [⟨"a", 1/2, 0, 0, 0, some 0, some 0, some (.num 0)⟩,
         ⟨"b", 0, 0, 0, 0, some 10, some 10, some (.num 1)⟩],
        hupd (hupd (hupd (fun _ => ([] : List Point3)) 1 []) 1 []) 1 [], 2) := by
    simp only [fenLoop]
    rw [hcreate1]
    simp only [exceptOkBind]
    rw [hcreate2]
    simp only [exceptOkBind]
    rfl
  have hadapt : adaptive_fenestration
      (⟨fun _ => some ⟨⟨0, 0, 0⟩, ⟨1, 0, 0⟩, ⟨0, 1, 0⟩, ⟨0, 0, 1⟩⟩,
        fun _ => (), fun _ _ => none, fun _ => (),
        fun _ _ _ => none, fun _ => 0, fun _ => 0⟩ : FenKernel Unit Unit Unit)
      (fun _ => ([] : List Point3)) 1 [(), ()] ["a", "b"] [0, 10] 0 0 (1/2)
      11 true =
      .ok ([.inr (), .inl ()],
        [⟨"a", 1/2, 0, 0, 0, some 0, some 0, some (.num 0)⟩,
         ⟨"b", 0, 0, 0, 0, some 10, some 10, some (.num 1)⟩],
        [0, 10], [1/2, 0],
        hupd (hupd (hupd (fun _ => ([] : List Point3)) 1 []) 1 []) 1 [], 2) := by
    unfold adaptive_fenestration
    rw [if_neg (by decide), if_neg (by decide)]
    rw [hn]
    simp only [exceptOkBind]
    rw [hbin]
    simp only [exceptOkBind]
    rw [show pyIterate (.list [PyVal.num 0, PyVal.num 1]) =
      .ok [PyVal.num 0, PyVal.num 1] from rfl]
    simp only [exceptOkBind]
    rw [hscales]
    simp only [exceptOkBind]
    rw [show ([(), ()] : List Unit).zip (["a", "b"].zip [(1/2 : ℚ), 0]) =
      [((), "a", (1/2 : ℚ)), ((), "b", 0)] from rfl]
    rw [hloop]
    simp only [exceptOkBind]
  refine ⟨rfl, by omega, ?_, rfl, ?_, hadapt, ?_⟩
  · exact (C8_no_caller_geometry_mutated (fun _ => 1) (fun _ => 0)
      (fun _ _ => some [[()]]) (fun _ => (⟨[], true⟩ : TCurve)) 1 (some 0)
      2 1 0 (some ⟨0, 0, 0⟩)
      (⟨fun _ => some ⟨⟨0, 0, 0⟩, ⟨1, 0, 0⟩, ⟨0, 1, 0⟩, ⟨0, 0, 1⟩⟩,
        fun _ => (), fun _ _ => none, fun _ => (),
        fun _ _ _ => none, fun _ => 0, fun _ => 0⟩ : FenKernel Unit Unit Unit)
      (fun _ => ([] : List Point3)) 1 () 0 0 "p"
      [(), ()] ["a", "b"] [0, 10] 0 (1/2) 11 true).1
     ([()], [⟨[], true⟩, ⟨[], true⟩],
      (floorLoop (floorTransform (fun _ => 1) (fun _ => 0) ⟨0, 0, 0⟩ 1 0) 0
        [0, 1] (fun _ => (⟨[], true⟩ : TCurve)) 1).1,
      (floorLoop (floorTransform (fun _ => 1) (fun _ => 0) ⟨0, 0, 0⟩ 1 0) 0
        [0, 1] (fun _ => (⟨[], true⟩ : TCurve)) 1).2.1) rfl 0 (by omega)
  · exact (C8_no_caller_geometry_mutated (fun _ => 1) (fun _ => 0)
      (fun _ _ => some [[()]]) (fun _ => (⟨[], true⟩ : TCurve)) 1 (some 0)
      2 1 0 (some ⟨0, 0, 0⟩)
      (⟨fun _ => some ⟨⟨0, 0, 0⟩, ⟨1, 0, 0⟩, ⟨0, 1, 0⟩, ⟨0, 0, 1⟩⟩,
        fun _ => (), fun _ _ => none, fun _ => (),
        fun _ _ _ => none, fun _ => 0, fun _ => 0⟩ : FenKernel Unit Unit Unit)
      (fun _ => ([] : List Point3)) 1 () 0 0 "p"
      [(), ()] ["a", "b"] [0, 10] 0 (1/2) 11 true).2.1
     (.inl (), ⟨"p", 0, 0, 0, 0, none, none, none⟩, fun _ => [], 1)
     rfl 0 (by omega)
  · exact (C8_no_caller_geometry_mutated (fun _ => 1) (fun _ => 0)
      (fun _ _ => some [[()]]) (fun _ => (⟨[], true⟩ : TCurve)) 1 (some 0)
      2 1 0 (some ⟨0, 0, 0⟩)
      (⟨fun _ => some ⟨⟨0, 0, 0⟩, ⟨1, 0, 0⟩, ⟨0, 1, 0⟩, ⟨0, 0, 1⟩⟩,
        fun _ => (), fun _ _ => none, fun _ => (),
        fun _ _ _ => none, fun _ => 0, fun _ => 0⟩ : FenKernel Unit Unit Unit)
      (fun _ => ([] : List Point3)) 1 () 0 0 "p"
      [(), ()] ["a", "b"] [0, 10] 0 (1/2) 11 true).2.2
     ([.inr (), .inl ()],
      [⟨"a", 1/2, 0, 0, 0, some 0, some 0, some (.num 0)⟩,
       ⟨"b", 0, 0, 0, 0, some 10, some 10, some (.num 1)⟩],
      [0, 10], [1/2, 0],
      hupd (hupd (hupd (fun _ => ([] : List Point3)) 1 []) 1 []) 1 [], 2)
     hadapt 0 (by omega)

theorem floorLoop_next_counter (xf : ℤ → Point3 → Point3) (baseId : ℕ) :
    ∀ (l : List ℤ) (heap : ℕ → TCurve) (next : ℕ),
      (floorLoop xf baseId l heap next).2.1 = next + l.length := by
  intro l
  induction l with
  | nil => intro heap next; simp [floorLoop]
  | cons i rest ih =>
    intro heap next
    show (floorLoop xf baseId (i :: rest) heap next).2.1 = _
    simp only [floorLoop]
    rw [ih]
    simp
    omega

theorem floorLoop_ids_length (xf : ℤ → Point3 → Point3) (baseId : ℕ) :
    ∀ (l : List ℤ) (heap : ℕ → TCurve) (next : ℕ),
      (floorLoop xf baseId l heap next).2.2.length = l.length := by
  intro l
  induction l with
  | nil => intro heap next; rfl
  | cons i rest ih =>
    intro heap next
    show (floorLoop xf baseId (i :: rest) heap next).2.2.length = _
    simp only [floorLoop, List.length_cons]
    rw [ih]

theorem floorLoop_ids_get (xf : ℤ → Point3 → Point3) (baseId : ℕ) :
    ∀ (l : List ℤ) (heap : ℕ → TCurve) (next : ℕ) (k : ℕ)
      (hk : k < (floorLoop xf baseId l heap next).2.2.length),
      (floorLoop xf baseId l heap next).2.2.get ⟨k, hk⟩ = next + k := by
  intro l
  induction l with
  | nil =>
    intro heap next k hk
    exact absurd hk (by simp [floorLoop])
  | cons i rest ih =>
    intro heap next k hk
    cases k with
    | zero => simp [floorLoop]
    | succ k' =>
      have h' : k' < (floorLoop xf baseId rest
          (hupd (hupd heap next (heap baseId)) next
            (transformCurve (xf i) (hupd heap next (heap baseId) next)))
          (next + 1)).2.2.length := by
        have := hk
        simp only [floorLoop, List.length_cons] at this
        simpa using Nat.lt_of_succ_lt_succ this
      have := ih _ (next + 1) k' h'
      simp only [floorLoop, List.get_cons_succ]
      rw [this]
      omega

theorem floorLoop_heap_at (xf : ℤ → Point3 → Point3) (baseId : ℕ) :
    ∀ (l : List ℤ) (heap : ℕ → TCurve) (next : ℕ), baseId < next →
      ∀ (k : ℕ) (hk : k < l.length),
        (floorLoop xf baseId l heap next).1 (next + k) =
          transformCurve (xf (l.get ⟨k, hk⟩)) (heap baseId) := by
  intro l
  induction l with
  | nil => intro heap next _ k hk; exact absurd hk (by simp)
  | cons i rest ih =>
    intro heap next hb k hk
    cases k with
    | zero =>
      simp only [floorLoop, Nat.add_zero, List.get]
      rw [floorLoop_heap_frame _ _ _ _ _ _ (Nat.lt_succ_self next)]
      simp [hupd]
    | succ k' =>
      have hk' : k' < rest.length := Nat.lt_of_succ_lt_succ hk
      have hb' : baseId < next + 1 := by omega
      have heq : (hupd (hupd heap next (heap baseId)) next
          (transformCurve (xf i) (hupd heap next (heap baseId) next))) baseId =
          heap baseId := by
        simp [hupd, Nat.ne_of_lt hb]
      simp only [floorLoop, List.get_cons_succ]
      have := ih (hupd (hupd heap next (heap baseId)) next
        (transformCurve (xf i) (hupd heap next (heap baseId) next)))
        (next + 1) hb' k' hk'
      rw [show next + (k' + 1) = (next + 1) + k' by omega, this, heq]

theorem loftAll_good {S : Type}
    (loft : TCurve → TCurve → Option (List (List S)))
    (hl : ∀ a b, ∃ f fs rest, loft a b = some ((f :: fs) :: rest)) :
    ∀ curves : List TCurve,
      ∃ s, loftAll loft curves = .ok s ∧ curves.length - 1 ≤ s.length := by
  intro curves
  induction curves with
  | nil => exact ⟨[], rfl, by simp⟩
  | cons a rest ih =>
    cases rest with
    | nil => exact ⟨[], rfl, by simp⟩
    | cons b rest' =>
      obtain ⟨s', hs', hlen'⟩ := ih
      obtain ⟨f, fs, rbr, hfb⟩ := hl a b
      refine ⟨(f :: fs) ++ s', ?_, ?_⟩
      · show loftAll loft (a :: b :: rest') = _
        simp only [loftAll, hfb]
        rw [hs']
        rfl
      · simp only [List.length_append, List.length_cons] at *
        omega

theorem twist_tower_ok_form {S : Type} (cosF sinF : ℚ → ℚ)
    (loft : TCurve → TCurve → Option (List (List S)))
    (heap : ℕ → TCurve) (next bid : ℕ) (floor_count : ℤ)
    (floor_height : ℚ) (rotation_per_floor : ℤ) (axis : Point3)
    (hcl : (heap bid).closed = true) (hfc : ¬floor_count < 2)
    (hfh : ¬floor_height ≤ 0) :
    twist_tower cosF sinF loft heap next (some bid) floor_count floor_height
        rotation_per_floor (some axis) =
      loftAll loft
        ((floorLoop (floorTransform cosF sinF axis floor_height rotation_per_floor)
            bid ((List.range floor_count.toNat).map Int.ofNat) heap next).2.2.map
         (floorLoop (floorTransform cosF sinF axis floor_height rotation_per_floor)
            bid ((List.range floor_count.toNat).map Int.ofNat) heap next).1) >>=
      fun surfaces => Except.ok (surfaces,
        (floorLoop (floorTransform cosF sinF axis floor_height rotation_per_floor)
            bid ((List.range floor_count.toNat).map Int.ofNat) heap next).2.2.map
         (floorLoop (floorTransform cosF sinF axis floor_height rotation_per_floor)
            bid ((List.range floor_count.toNat).map Int.ofNat) heap next).1,
        (floorLoop (floorTransform cosF sinF axis floor_height rotation_per_floor)
            bid ((List.range floor_count.toNat).map Int.ofNat) heap next).1,
        (floorLoop (floorTransform cosF sinF axis floor_height rotation_per_floor)
            bid ((List.range floor_count.toNat).map Int.ofNat) heap next).2.1) := by
  unfold twist_tower
  dsimp only
  rw [if_neg (by simp [hcl]), if_neg hfc, if_neg hfh]

/-- C4: `twist_tower` rejects a missing base curve, a non-closed base
curve, `floor_count < 2`, and `floor_height ≤ 0` with the
input-validation error; on valid inputs with `floor_count = 4` (and a
loft that yields at least one brep with at least one face per pair, as a
valid kernel does) it returns exactly 4 floor curves and at least 3
surfaces, where floor `k`'s curve is the base curve translated to
elevation `k * floor_height` and, when the cumulative rotation
`k * rotation_per_floor` degrees is nonzero, rotated by that angle about
the Z axis through the axis point elevated to that floor's height. -/
theorem C4_twist_tower_contract {S : Type} (cosF sinF : ℚ → ℚ)
    (loft : TCurve → TCurve → Option (List (List S)))
    (heap : ℕ → TCurve) (next bid : ℕ) (floor_count : ℤ)
    (floor_height : ℚ) (rotation_per_floor : ℤ) (axis : Point3) :
    (twist_tower cosF sinF loft heap next none floor_count floor_height
        rotation_per_floor (some axis) = .error .valueError) ∧
    (¬(heap bid).closed = true →
      twist_tower cosF sinF loft heap next (some bid) floor_count
        floor_height rotation_per_floor (some axis) = .error .valueError) ∧
    ((heap bid).closed = true → floor_count < 2 →
      twist_tower cosF sinF loft heap next (some bid) floor_count
        floor_height rotation_per_floor (some axis) = .error .valueError) ∧
    ((heap bid).closed = true → ¬floor_count < 2 → floor_height ≤ 0 →
      twist_tower cosF sinF loft heap next (some bid) floor_count
        floor_height rotation_per_floor (some axis) = .error .valueError) ∧
    ((heap bid).closed = true → 0 < floor_height → bid < next →
      (∀ a b, ∃ f fs rbr, loft a b = some ((f :: fs) :: rbr)) →
      ∃ surfaces curves heap' next',
        twist_tower cosF sinF loft heap next (some bid) 4 floor_height
          rotation_per_floor (some axis) = .ok (surfaces, curves, heap', next') ∧
        curves.length = 4 ∧ 3 ≤ surfaces.length ∧
        ∀ (k : ℕ) (hk : k < curves.length),
          ((k : ℤ) * rotation_per_floor ≠ 0 →
            (curves.get ⟨k, hk⟩).pts = (heap bid).pts.map (fun p =>
              rotationZ (cosF (degToRad ((k : ℤ) * rotation_per_floor)))
                (sinF (degToRad ((k : ℤ) * rotation_per_floor)))
                ⟨axis.x, axis.y, ((k : ℤ) : ℚ) * floor_height⟩
                (translation 0 0 (((k : ℤ) : ℚ) * floor_height) p))) ∧
          ((k : ℤ) * rotation_per_floor = 0 →
            (curves.get ⟨k, hk⟩).pts = (heap bid).pts.map
              (translation 0 0 (((k : ℤ) : ℚ) * floor_height))) ∧
          (curves.get ⟨k, hk⟩).closed = (heap bid).closed) := by
  refine ⟨rfl, ?_, ?_, ?_, ?_⟩
  · intro hcl
    unfold twist_tower
    dsimp only
    rw [if_pos (by simp [hcl])]
    rfl
  · intro hcl hfc
    unfold twist_tower
    dsimp only
    rw [if_neg (by simp [hcl]), if_pos hfc]
    rfl
  · intro hcl hfc hfh
    unfold twist_tower
    dsimp only
    rw [if_neg (by simp [hcl]), if_neg hfc, if_pos hfh]
    rfl
  · intro hcl hfh hbn hl
    rw [twist_tower_ok_form cosF sinF loft heap next bid 4 floor_height
      rotation_per_floor axis hcl (by norm_num) (not_le.mpr hfh)]
    set FL := floorLoop
      (floorTransform cosF sinF axis floor_height rotation_per_floor)
      bid ((List.range (4 : ℤ).toNat).map Int.ofNat) heap next with hFL
    obtain ⟨s, hs, hslen⟩ := loftAll_good loft hl (FL.2.2.map FL.1)
    have hclen : (FL.2.2.map FL.1).length = 4 := by
      rw [List.length_map, hFL, floorLoop_ids_length]
      rfl
    refine ⟨s, FL.2.2.map FL.1, FL.1, FL.2.1, ?_, hclen, ?_, ?_⟩
    · rw [hs, exceptOkBind]
    · rw [hclen] at hslen
      omega
    · intro k hk
      have hk4 : k < 4 := by rw [hclen] at hk; exact hk
      have hkl : k < ((List.range (4 : ℤ).toNat).map Int.ofNat).length := by
        simpa using hk4
      have hbound : k < FL.2.2.length := by
        have h := hk
        rwa [List.length_map] at h
      have hid : FL.2.2.get ⟨k, hbound⟩ = next + k :=
        floorLoop_ids_get
          (floorTransform cosF sinF axis floor_height rotation_per_floor)
          bid ((List.range (4 : ℤ).toNat).map Int.ofNat) heap next k hbound
      have hgetl : ((List.range (4 : ℤ).toNat).map Int.ofNat).get ⟨k, hkl⟩ =
          (k : ℤ) := by
        simp [List.get_eq_getElem, List.getElem_map, List.getElem_range]
      have hval := floorLoop_heap_at
        (floorTransform cosF sinF axis floor_height rotation_per_floor)
        bid ((List.range (4 : ℤ).toNat).map Int.ofNat) heap next hbn k hkl
      rw [hgetl] at hval
      have hget : (FL.2.2.map FL.1).get ⟨k, hk⟩ =
          transformCurve
            (floorTransform cosF sinF axis floor_height rotation_per_floor (k : ℤ))
            (heap bid) := by
        have hstep : (FL.2.2.map FL.1).get ⟨k, hk⟩ = FL.1 (FL.2.2.get ⟨k, hbound⟩) := by
          simp [List.get_eq_getElem, List.getElem_map]
        rw [hstep, hid]
        exact hval
      rw [hget]
      refine ⟨?_, ?_, rfl⟩
      · intro hrot
        have hfun :
            (floorTransform cosF sinF axis floor_height rotation_per_floor (k : ℤ)) =
            fun p => rotationZ (cosF (degToRad ((k : ℤ) * rotation_per_floor)))
              (sinF (degToRad ((k : ℤ) * rotation_per_floor)))
              ⟨axis.x, axis.y, ((k : ℤ) : ℚ) * floor_height⟩
              (translation 0 0 (((k : ℤ) : ℚ) * floor_height) p) :=
          funext (fun p => floorTransform_rot_comp_trans cosF sinF axis
            floor_height rotation_per_floor (k : ℤ) hrot p)
        show ((heap bid).pts.map _) = _
        rw [hfun]
      · intro hrot
        show ((heap bid).pts.map _) = _
        have hfun :
            (floorTransform cosF sinF axis floor_height rotation_per_floor (k : ℤ)) =
            translation 0 0 (((k : ℤ) : ℚ) * floor_height) := by
          simp only [floorTransform, if_neg (not_not_intro hrot)]
          rfl
        rw [hfun]

/-- C4 witness: a 4-floor, 90-degrees-per-floor tower over a one-point
closed curve, with a loft producing one single-face brep per pair. -/
theorem C4_witness :
    ∃ surfaces curves heap' next',
      twist_tower (fun _ => 0) (fun _ => 1) (fun _ _ => some [[()]])
        (fun _ => (⟨[⟨1, 0, 0⟩], true⟩ : TCurve)) 1 (some 0) 4 1 90
        (some ⟨0, 0, 0⟩) = .ok (surfaces, curves, heap', next') ∧
      curves.length = 4 ∧ 3 ≤ surfaces.length ∧
      ∀ (k : ℕ) (hk : k < curves.length),
        ((k : ℤ) * 90 ≠ 0 →
          (curves.get ⟨k, hk⟩).pts =
            ([⟨1, 0, 0⟩] : List Point3).map (fun p =>
              rotationZ ((fun (_ : ℚ) => (0 : ℚ)) (degToRad ((k : ℤ) * 90)))
                ((fun (_ : ℚ) => (1 : ℚ)) (degToRad ((k : ℤ) * 90)))
                ⟨(0 : ℚ), 0, ((k : ℤ) : ℚ) * 1⟩
                (translation 0 0 (((k : ℤ) : ℚ) * 1) p))) ∧
        ((k : ℤ) * 90 = 0 →
          (curves.get ⟨k, hk⟩).pts =
            ([⟨1, 0, 0⟩] : List Point3).map
              (translation 0 0 (((k : ℤ) : ℚ) * 1))) ∧
        (curves.get ⟨k, hk⟩).closed = true :=
  (C4_twist_tower_contract (fun _ => 0) (fun _ => 1) (fun _ _ => some [[()]])
    (fun _ => (⟨[⟨1, 0, 0⟩], true⟩ : TCurve)) 1 0 4 1 90 ⟨0, 0, 0⟩).2.2.2.2
    rfl (by norm_num) (by omega) (fun a b => ⟨(), [], [], rfl⟩)

theorem digitChar_inj_lt10 :
    ∀ a < 10, ∀ b < 10, Nat.digitChar a = Nat.digitChar b → a = b := by decide

theorem digitChar_ne_dash : ∀ a < 10, Nat.digitChar a ≠ '-' := by decide

theorem digitChar_eq_zero_iff : ∀ a < 10, (Nat.digitChar a = '0' ↔ a = 0) := by
  decide

theorem map_digitChar_inj :
    ∀ (xs ys : List ℕ), (∀ x ∈ xs, x < 10) → (∀ y ∈ ys, y < 10) →
      xs.map Nat.digitChar = ys.map Nat.digitChar → xs = ys := by
  intro xs
  induction xs with
  | nil =>
    intro ys _ _ h
    cases ys with
    | nil => rfl
    | cons b t => exact absurd h (by simp)
  | cons a t ih =>
    intro ys hx hy h
    cases ys with
    | nil => exact absurd h (by simp)
    | cons b t' =>
      simp only [List.map_cons, List.cons.injEq] at h
      have hab : a = b :=
        digitChar_inj_lt10 a (hx a (by simp)) b (hy b (by simp)) h.1
      have ht : t = t' := ih t' (fun x hxm => hx x (by simp [hxm]))
        (fun y hym => hy y (by simp [hym])) h.2
      rw [hab, ht]

theorem natRepr_data_of_ne_zero {n : ℕ} (hn : n ≠ 0) :
    (natRepr n).data = ((Nat.digits 10 n).map Nat.digitChar).reverse := by
  unfold natRepr
  rw [if_neg hn]

theorem natRepr_injective : Function.Injective natRepr := by
  intro m n h
  by_cases hm : m = 0 <;> by_cases hn : n = 0
  · rw [hm, hn]
  · exfalso
    have hd : (natRepr m).data = (natRepr n).data := by rw [h]
    rw [hm] at hd
    rw [natRepr_data_of_ne_zero hn] at hd
    have hrev : ((Nat.digits 10 n).map Nat.digitChar).reverse.head? = some '0' := by
      rw [← hd]; rfl
    rw [List.head?_reverse] at hrev
    have hne : (Nat.digits 10 n).map Nat.digitChar ≠ [] := by
      simp [Nat.digits_ne_nil_iff_ne_zero.mpr hn]
    rw [List.getLast?_eq_getLast _ hne, List.getLast_map] at hrev
    have hlast := Nat.getLast_digit_ne_zero 10 hn
    have hdig_ne : Nat.digits 10 n ≠ [] :=
      (@Nat.digits_ne_nil_iff_ne_zero 10 n).mpr hn
    have hmem := @List.getLast_mem ℕ (Nat.digits 10 n) hdig_ne
    have hlt := Nat.digits_lt_base (by norm_num) hmem
    have : Nat.digitChar ((Nat.digits 10 n).getLast
        (Nat.digits_ne_nil_iff_ne_zero.mpr hn)) = '0' := by
      injection hrev
    exact hlast ((digitChar_eq_zero_iff _ hlt).mp this)
  · exfalso
    have hd : (natRepr m).data = (natRepr n).data := by rw [h]
    rw [hn] at hd
    rw [natRepr_data_of_ne_zero hm] at hd
    have hrev : ((Nat.digits 10 m).map Nat.digitChar).reverse.head? = some '0' := by
      rw [hd]; rfl
    rw [List.head?_reverse] at hrev
    have hne : (Nat.digits 10 m).map Nat.digitChar ≠ [] := by
      simp [Nat.digits_ne_nil_iff_ne_zero.mpr hm]
    rw [List.getLast?_eq_getLast _ hne, List.getLast_map] at hrev
    have hlast := Nat.getLast_digit_ne_zero 10 hm
    have hdig_ne : Nat.digits 10 m ≠ [] :=
      (@Nat.digits_ne_nil_iff_ne_zero 10 m).mpr hm
    have hmem := @List.getLast_mem ℕ (Nat.digits 10 m) hdig_ne
    have hlt := Nat.digits_lt_base (by norm_num) hmem
    have : Nat.digitChar ((Nat.digits 10 m).getLast
        (Nat.digits_ne_nil_iff_ne_zero.mpr hm)) = '0' := by
      injection hrev
    exact hlast ((digitChar_eq_zero_iff _ hlt).mp this)
  · have hd : (natRepr m).data = (natRepr n).data := by rw [h]
    rw [natRepr_data_of_ne_zero hm, natRepr_data_of_ne_zero hn] at hd
    have hmap := List.reverse_injective hd
    have hdig := map_digitChar_inj _ _
      (fun x hx => Nat.digits_lt_base (by norm_num) hx)
      (fun y hy => Nat.digits_lt_base (by norm_num) hy) hmap
    exact Nat.digits.injective 10 hdig

theorem natRepr_length_one_of_lt10 {n : ℕ} (hn : n < 10) :
    (natRepr n).data.length = 1 := by
  by_cases h0 : n = 0
  · rw [h0]; rfl
  · rw [natRepr_data_of_ne_zero h0]
    have : Nat.digits 10 n = [n] := by
      rw [Nat.digits_def' (by norm_num : (1 : ℕ) < 10) (Nat.pos_of_ne_zero h0)]
      simp [Nat.mod_eq_of_lt hn, Nat.div_eq_of_lt hn]
    rw [this]
    rfl

theorem natRepr_head_ne_zero {n : ℕ} (hn : n ≠ 0) :
    (natRepr n).data.head? ≠ some '0' := by
  rw [natRepr_data_of_ne_zero hn, List.head?_reverse]
  have hdig_ne : Nat.digits 10 n ≠ [] :=
    (@Nat.digits_ne_nil_iff_ne_zero 10 n).mpr hn
  have hne : (Nat.digits 10 n).map Nat.digitChar ≠ [] := by simp [hdig_ne]
  rw [List.getLast?_eq_getLast _ hne, List.getLast_map]
  intro hq
  have hc : Nat.digitChar ((Nat.digits 10 n).getLast hdig_ne) = '0' := by
    injection hq
  have hmem := @List.getLast_mem ℕ (Nat.digits 10 n) hdig_ne
  have hlt := Nat.digits_lt_base (by norm_num) hmem
  exact Nat.getLast_digit_ne_zero 10 hn ((digitChar_eq_zero_iff _ hlt).mp hc)

theorem pad2_injective : Function.Injective pad2 := by
  intro m n h
  unfold pad2 at h
  by_cases hm : m < 10 <;> by_cases hn : n < 10
  · rw [if_pos hm, if_pos hn] at h
    have hd : ("0" ++ natRepr m).data = ("0" ++ natRepr n).data := by rw [h]
    rw [String.data_append, String.data_append] at hd
    simp only [List.singleton_append, List.cons.injEq] at hd
    exact natRepr_injective (String.ext hd.2)
  · exfalso
    rw [if_pos hm, if_neg hn] at h
    have hd : ("0" ++ natRepr m).data = (natRepr n).data := by rw [h]
    rw [String.data_append] at hd
    have hh : (natRepr n).data.head? = some '0' := by
      rw [← hd]; rfl
    exact natRepr_head_ne_zero (by omega) hh
  · exfalso
    rw [if_neg hm, if_pos hn] at h
    have hd : ("0" ++ natRepr n).data = (natRepr m).data := by rw [h]
    rw [String.data_append] at hd
    have hh : (natRepr m).data.head? = some '0' := by
      rw [← hd]; rfl
    exact natRepr_head_ne_zero (by omega) hh
  · rw [if_neg hm, if_neg hn] at h
    exact natRepr_injective h

theorem natRepr_no_dash (n : ℕ) : '-' ∉ (natRepr n).data := by
  by_cases h0 : n = 0
  · rw [h0]; decide
  · rw [natRepr_data_of_ne_zero h0]
    intro hmem
    rw [List.mem_reverse, List.mem_map] at hmem
    obtain ⟨d, hd, hdc⟩ := hmem
    exact digitChar_ne_dash d (Nat.digits_lt_base (by norm_num) hd) hdc

theorem pad2_no_dash (n : ℕ) : '-' ∉ (pad2 n).data := by
  unfold pad2
  by_cases hn : n < 10
  · rw [if_pos hn, String.data_append]
    intro hmem
    rcases List.mem_append.mp hmem with h1 | h2
    · simp at h1
    · exact natRepr_no_dash n h2
  · rw [if_neg hn]
    exact natRepr_no_dash n

theorem append_dash_inj :
    ∀ (xs xs' ys ys' : List Char), '-' ∉ xs → '-' ∉ xs' →
      xs ++ '-' :: ys = xs' ++ '-' :: ys' → xs = xs' ∧ ys = ys' := by
  intro xs
  induction xs with
  | nil =>
    intro xs' ys ys' _ hx' h
    cases xs' with
    | nil => simpa using h
    | cons c t =>
      exfalso
      simp only [List.nil_append, List.cons_append, List.cons.injEq] at h
      exact hx' (by rw [h.1]; exact List.mem_cons_self c t)
  | cons c t ih =>
    intro xs' ys ys' hx hx' h
    cases xs' with
    | nil =>
      exfalso
      simp only [List.cons_append, List.nil_append, List.cons.injEq] at h
      exact hx (by rw [← h.1]; exact List.mem_cons_self c t)
    | cons c' t' =>
      simp only [List.cons_append, List.cons.injEq] at h
      obtain ⟨hc, hrest⟩ := h
      have := ih t' ys ys' (fun hm => hx (List.mem_cons_of_mem c hm))
        (fun hm => hx' (List.mem_cons_of_mem c' hm)) hrest
      exact ⟨by rw [hc, this.1], this.2⟩

theorem panelId_inj ( pfx : String) (u v u' v' : ℕ)
    (h : panelId pfx u v = panelId pfx u' v') : u = u' ∧ v = v' := by
  have hd : (panelId pfx u v).data = (panelId pfx u' v').data := by rw [h]
  unfold panelId at hd
  simp only [String.data_append] at hd
  have hrev : ((pfx.data ++ ['-'] ++ (pad2 u).data ++ ['-'] ++
      (pad2 v).data)).reverse =
      ((pfx.data ++ ['-'] ++ (pad2 u').data ++ ['-'] ++
      (pad2 v').data)).reverse := by
    simpa using congrArg List.reverse hd
  simp only [List.reverse_append, List.reverse_cons, List.reverse_nil,
    List.nil_append, List.append_assoc, List.cons_append, List.singleton_append] at hrev
  have h1 := append_dash_inj _ _ _ _
    (by intro hm; exact pad2_no_dash v (List.mem_reverse.mp hm))
    (by intro hm; exact pad2_no_dash v' (List.mem_reverse.mp hm)) hrev
  have hv : v = v' :=
    pad2_injective (String.ext (List.reverse_injective h1.1))
  have h2 := append_dash_inj _ _ _ _
    (by intro hm; exact pad2_no_dash u (List.mem_reverse.mp hm))
    (by intro hm; exact pad2_no_dash u' (List.mem_reverse.mp hm)) h1.2
  have hu : u = u' :=
    pad2_injective (String.ext (List.reverse_injective h2.1))
  exact ⟨hu, hv⟩

theorem generate_panel_ids_pos (u_count v_count : ℤ) ( pfx : String)
    (hu : 0 < u_count) (hv : 0 < v_count) :
    generate_panel_ids u_count v_count pfx =
      .ok (panelIdsList u_count.toNat v_count.toNat pfx) := by
  unfold generate_panel_ids panelIdsList
  rw [if_neg (by simp only [not_or, not_le]; exact ⟨hu, hv⟩)]

theorem panelIdsList_length (uc vc : ℕ) ( pfx : String) :
    (panelIdsList uc vc pfx).length = vc * uc := by
  unfold panelIdsList
  induction vc with
  | zero => simp
  | succ n ih =>
    rw [List.range_succ, List.map_append, List.flatten_append]
    simp only [List.length_append, ih]
    simp [Nat.succ_mul]

theorem panelIdsList_nodup (uc vc : ℕ) ( pfx : String) :
    (panelIdsList uc vc pfx).Nodup := by
  unfold panelIdsList
  rw [List.nodup_flatten]
  constructor
  · intro l hl
    rw [List.mem_map] at hl
    obtain ⟨vj, _, rfl⟩ := hl
    refine List.Nodup.map_on ?_ (List.nodup_range uc)
    intro x _ y _ hxy
    have := (panelId_inj pfx (x + 1) (vj + 1) (y + 1) (vj + 1) hxy).1
    omega
  · rw [List.pairwise_map]
    have hpl : (List.range vc).Pairwise (· < ·) := List.pairwise_lt_range vc
    refine hpl.imp ?_
    intro a b hab
    intro s hsa hsb
    rw [List.mem_map] at hsa hsb
    obtain ⟨x, _, hxa⟩ := hsa
    obtain ⟨y, _, hyb⟩ := hsb
    have := (panelId_inj pfx (x + 1) (a + 1) (y + 1) (b + 1)
      (hxa.trans hyb.symm)).2
    omega

theorem digits10_single {d : ℕ} (h1 : 0 < d) (h2 : d < 10) :
    Nat.digits 10 d = [d] := by
  rw [Nat.digits_def' (by norm_num : (1 : ℕ) < 10) h1]
  simp [Nat.mod_eq_of_lt h2, Nat.div_eq_of_lt h2]

theorem natRepr_small {d : ℕ} (h1 : 0 < d) (h2 : d < 10) :
    natRepr d = String.mk [Nat.digitChar d] := by
  unfold natRepr
  rw [if_neg (by omega), digits10_single h1 h2]
  rfl

theorem panelId_digits ( pfx : String) (u v : ℕ) (hu1 : 0 < u) (hu2 : u < 10)
    (hv1 : 0 < v) (hv2 : v < 10) :
    panelId pfx u v =
      pfx ++ String.mk ['-', '0', Nat.digitChar u, '-', '0', Nat.digitChar v] := by
  unfold panelId pad2
  rw [if_pos hu2, if_pos hv2, natRepr_small hu1 hu2, natRepr_small hv1 hv2]
  apply String.ext
  simp [String.data_append]

/-- C6: for positive counts `generate_panel_ids` succeeds with exactly
`u_count * v_count` pairwise-distinct ids, laid out V-outer/U-inner with
each id formatted `{prefix}-{u:02d}-{v:02d}`; concretely
`generate_panel_ids 2 3 "P"` is the six-element list of the claim; and
it fails with the input-validation error when either count is `≤ 0`. -/
theorem C6_generate_panel_ids (u_count v_count : ℤ) ( pfx : String)
    (hu : 0 < u_count) (hv : 0 < v_count) :
    (∃ ids, generate_panel_ids u_count v_count pfx = .ok ids ∧
      (ids.length : ℤ) = u_count * v_count ∧ ids.Nodup ∧
      ids = ((List.range v_count.toNat).map (fun vj =>
        (List.range u_count.toNat).map (fun ui =>
          panelId pfx (ui + 1) (vj + 1)))).flatten) ∧
    generate_panel_ids 2 3 "P" =
      .ok ["P-01-01", "P-02-01", "P-01-02", "P-02-02", "P-01-03", "P-02-03"] ∧
    (∀ (uc vc : ℤ) ( q : String), uc ≤ 0 ∨ vc ≤ 0 →
      generate_panel_ids uc vc q = .error .valueError) := by
  refine ⟨⟨panelIdsList u_count.toNat v_count.toNat pfx,
      generate_panel_ids_pos u_count v_count pfx hu hv, ?_, ?_, rfl⟩, ?_, ?_⟩
  · rw [panelIdsList_length]
    push_cast
    rw [Int.toNat_of_nonneg hu.le, Int.toNat_of_nonneg hv.le]
    ring
  · exact panelIdsList_nodup _ _ _
  · rw [generate_panel_ids_pos 2 3 "P" (by norm_num) (by norm_num)]
    have h1 : (0 : ℕ) < 1 := by norm_num
    have h2 : (1 : ℕ) < 10 := by norm_num
    unfold panelIdsList
    rw [show List.range (3 : ℤ).toNat = [0, 1, 2] from rfl,
        show List.range (2 : ℤ).toNat = [0, 1] from rfl]
    simp only [List.map_cons, List.map_nil, List.flatten_cons, List.flatten_nil]
    rw [panelId_digits "P" 1 1 (by norm_num) (by norm_num) (by norm_num) (by norm_num),
        panelId_digits "P" 2 1 (by norm_num) (by norm_num) (by norm_num) (by norm_num),
        panelId_digits "P" 1 2 (by norm_num) (by norm_num) (by norm_num) (by norm_num),
        panelId_digits "P" 2 2 (by norm_num) (by norm_num) (by norm_num) (by norm_num),
        panelId_digits "P" 1 3 (by norm_num) (by norm_num) (by norm_num) (by norm_num),
        panelId_digits "P" 2 3 (by norm_num) (by norm_num) (by norm_num) (by norm_num)]
    decide
  · intro uc vc q hneg
    unfold generate_panel_ids
    rw [if_pos (by omega)]

/-- C6 witness: the positive-count clause at `u_count = 2`,
`v_count = 3`, prefix `"P"`. -/
theorem C6_witness :
    (0 : ℤ) < 2 ∧ (0 : ℤ) < 3 ∧
    ∃ ids, generate_panel_ids 2 3 "P" = .ok ids ∧
      (ids.length : ℤ) = 2 * 3 ∧ ids.Nodup ∧
      ids = ((List.range (3 : ℤ).toNat).map (fun vj =>
        (List.range (2 : ℤ).toNat).map (fun ui =>
          panelId "P" (ui + 1) (vj + 1)))).flatten :=
  ⟨by norm_num, by norm_num, (C6_generate_panel_ids 2 3 "P" (by norm_num) (by norm_num)).1⟩

theorem mapM_ok_of_forall {α β : Type} (f : α → Except PyErr β) (P : β → Prop) :
    ∀ (xs : List α), (∀ x ∈ xs, ∃ y, f x = .ok y ∧ P y) →
      ∃ ys, xs.mapM f = .ok ys ∧ ys.length = xs.length ∧ ∀ y ∈ ys, P y := by
  intro xs
  induction xs with
  | nil => intro _; exact ⟨[], rfl, rfl, by simp⟩
  | cons a t ih =>
    intro h
    obtain ⟨y, hy, hPy⟩ := h a (by simp)
    obtain ⟨ys, hys, hlen, hP⟩ := ih (fun x hx => h x (by simp [hx]))
    refine ⟨y :: ys, ?_, by simp [hlen], ?_⟩
    · rw [List.mapM_cons, hy, exceptOkBind, hys, exceptOkBind]
      rfl
    · intro z hz
      rcases List.mem_cons.mp hz with h1 | h2
      · rw [h1]; exact hPy
      · exact hP z h2

theorem flatten_const_length {α : Type} (m : ℕ) :
    ∀ (ls : List (List α)), (∀ l ∈ ls, l.length = m) →
      ls.flatten.length = ls.length * m := by
  intro ls
  induction ls with
  | nil => intro _; simp
  | cons a t ih =>
    intro h
    rw [List.flatten_cons, List.length_append, h a (by simp),
      ih (fun l hl => h l (by simp [hl]))]
    simp [Nat.succ_mul]
    omega

theorem consPairs_length (dom : RgInterval) (count : ℤ) :
    (consPairs (paramList dom count)).length = count.toNat := by
  unfold consPairs paramList
  simp only [List.length_zip, List.length_tail, List.length_map,
    List.length_range]
  omega

theorem panelize_surface_ok_form {PT : Type}
    (createFromCorners : Point3 → Point3 → Point3 → Point3 → Option PT)
    (inp : SurfaceInput) (s : Srf) (u_count v_count : ℤ) ( pfx : String)
    (hc : coerceSurface inp = .ok s) (hcnt : ¬(u_count ≤ 0 ∨ v_count ≤ 0)) :
    panelize_surface createFromCorners (some inp) u_count v_count pfx =
      generate_panel_ids u_count v_count pfx >>= fun ids =>
      ((consPairs (paramList s.vDom v_count)).mapM (fun vp =>
        (consPairs (paramList s.uDom u_count)).mapM (fun up =>
          match createFromCorners
              (s.pointAt up.1 vp.1) (s.pointAt up.2 vp.1)
              (s.pointAt up.2 vp.2) (s.pointAt up.1 vp.2) with
          | some patch => Except.ok patch
          | none => (Except.error .runtimeError : Except PyErr PT)))) >>=
      fun rows => Except.ok (rows.flatten, ids) := by
  unfold panelize_surface consPairs paramList
  dsimp only
  rw [if_neg hcnt, hc]
  rfl

/-- C5: on a valid (coercible) surface input with positive counts and a
kernel whose patch construction succeeds, `panelize_surface` returns
exactly `u_count * v_count` panels together with an id list equal to
`generate_panel_ids u_count v_count prefix`, index-aligned (same
length, same order). -/
theorem C5_panelize_surface_aligned {PT : Type}
    (createFromCorners : Point3 → Point3 → Point3 → Point3 → Option PT)
    (inp : SurfaceInput) (s : Srf) (u_count v_count : ℤ) ( pfx : String)
    (hc : coerceSurface inp = .ok s) (hu : 0 < u_count) (hv : 0 < v_count)
    (hk : ∀ a b c d, ∃ p, createFromCorners a b c d = some p) :
    ∃ panels ids,
      panelize_surface createFromCorners (some inp) u_count v_count pfx =
        .ok (panels, ids) ∧
      (panels.length : ℤ) = u_count * v_count ∧
      generate_panel_ids u_count v_count pfx = .ok ids ∧
      panels.length = ids.length := by
  rw [panelize_surface_ok_form createFromCorners inp s u_count v_count pfx hc
    (by simp only [not_or, not_le]; exact ⟨hu, hv⟩)]
  rw [generate_panel_ids_pos u_count v_count pfx hu hv, exceptOkBind]
  have hrowex : ∀ vp ∈ consPairs (paramList s.vDom v_count),
      ∃ row, (consPairs (paramList s.uDom u_count)).mapM (fun up =>
        match createFromCorners
            (s.pointAt up.1 vp.1) (s.pointAt up.2 vp.1)
            (s.pointAt up.2 vp.2) (s.pointAt up.1 vp.2) with
        | some patch => Except.ok patch
        | none => (Except.error .runtimeError : Except PyErr PT)) = .ok row ∧
        row.length = u_count.toNat := by
    intro vp _
    obtain ⟨row, hrow, hlen, -⟩ := mapM_ok_of_forall
      (fun up =>
        match createFromCorners
            (s.pointAt up.1 vp.1) (s.pointAt up.2 vp.1)
            (s.pointAt up.2 vp.2) (s.pointAt up.1 vp.2) with
        | some patch => Except.ok patch
        | none => (Except.error .runtimeError : Except PyErr PT))
      (fun _ => True) (consPairs (paramList s.uDom u_count))
      (fun up _ => by
        obtain ⟨p, hp⟩ := hk (s.pointAt up.1 vp.1) (s.pointAt up.2 vp.1)
          (s.pointAt up.2 vp.2) (s.pointAt up.1 vp.2)
        refine ⟨p, ?_, trivial⟩
        dsimp only
        rw [hp])
    exact ⟨row, hrow, by rw [hlen, consPairs_length]⟩
  obtain ⟨rows, hrows, hrlen, hrP⟩ := mapM_ok_of_forall _
    (fun row : List PT => row.length = u_count.toNat) _ hrowex
  refine ⟨rows.flatten, panelIdsList u_count.toNat v_count.toNat pfx,
    ?_, ?_, ?_, ?_⟩
  · rw [hrows, exceptOkBind]
  · rw [flatten_const_length u_count.toNat rows hrP, hrlen, consPairs_length]
    push_cast
    rw [Int.toNat_of_nonneg hu.le, Int.toNat_of_nonneg hv.le]
    ring
  · rfl
  · rw [flatten_const_length u_count.toNat rows hrP, hrlen, consPairs_length,
      panelIdsList_length]

/-- C5 witness: a flat unit-domain surface, 2 by 3 grid,
always-succeeding patch construction. -/
theorem C5_witness :
    coerceSurface (.srf ⟨⟨0, 1⟩, ⟨0, 1⟩, fun u v => ⟨u, v, 0⟩⟩) =
      .ok ⟨⟨0, 1⟩, ⟨0, 1⟩, fun u v => ⟨u, v, 0⟩⟩ ∧
    (0 : ℤ) < 2 ∧ (0 : ℤ) < 3 ∧
    ∃ panels ids,
      panelize_surface (fun _ _ _ _ => some ()) (some (.srf ⟨⟨0, 1⟩, ⟨0, 1⟩,
          fun u v => ⟨u, v, 0⟩⟩)) 2 3 "P" = .ok (panels, ids) ∧
      (panels.length : ℤ) = 2 * 3 ∧
      generate_panel_ids 2 3 "P" = .ok ids ∧
      panels.length = ids.length :=
  ⟨rfl, by norm_num, by norm_num,
   C5_panelize_surface_aligned (fun _ _ _ _ => some ())
     (.srf ⟨⟨0, 1⟩, ⟨0, 1⟩, fun u v => ⟨u, v, 0⟩⟩)
     ⟨⟨0, 1⟩, ⟨0, 1⟩, fun u v => ⟨u, v, 0⟩⟩ 2 3 "P" rfl (by norm_num)
     (by norm_num) (fun a b c d => ⟨(), rfl⟩)⟩
